import Mathlib

/-!
# RemoteAgents backend — verification of spec claims

A shallow embedding of the parts of the RemoteAgents backend (Go) that the
spec claims talk about, together with proofs/refutations of those claims.

Conventions used throughout:
* Go `[]byte` is modelled as `List UInt8`; Go `string` as Lean `String`
  (a sequence of unicode characters; Go string indexing/length is byte
  based, which we model with explicit UTF-8 byte size functions).
* Go `time.Time`/`time.Duration` are modelled as `Int` nanosecond counts.
* Concurrency is not modelled: the code under study serializes each of the
  modelled operations behind a mutex, so each operation is embedded as a
  pure state transformer.
-/

set_option maxHeartbeats 1000000

namespace RemoteAgents

/-! ## Ring buffer — `backend/internal/buffer/ring_buffer.go` -/

/-- Go `[]byte`. -/
abbrev Bytes := List UInt8

/-- The last `n` elements of a list, i.e. Go `l[len(l)-n:]` (all of `l` when
`n ≥ len(l)`). -/
def lastN (n : Nat) (l : Bytes) : Bytes := l.drop (l.length - n)

/-- `RingBuffer` stores the most recent bytes up to `capacity`
(`ring_buffer.go`, struct `RingBuffer`; the mutex is not modelled). -/
structure RingBuffer where
  data : Bytes
  capacity : Nat
  deriving Repr, DecidableEq

namespace RingBuffer

/-- `NewRingBuffer`: a capacity `≤ 0` defaults to 1 (Go `int` capacity is
modelled as `Int` here, matching the source's signature). -/
def new (capacity : Int) : RingBuffer :=
  let c := if capacity ≤ 0 then (1 : Int) else capacity
  { data := [], capacity := c.toNat }

/-- `Write` appends `p`, discarding the oldest bytes once `capacity` is
exceeded; a single write of `len(p) ≥ capacity` keeps only the last
`capacity` bytes of `p`.  (The returned `(n, err) = (len p, nil)` of the Go
method carries no information, so only the state change is modelled.) -/
def write (rb : RingBuffer) (p : Bytes) : RingBuffer :=
  if p = [] then rb
  else if rb.capacity ≤ p.length then
    { rb with data := lastN rb.capacity p }
  else if rb.data.length + p.length ≤ rb.capacity then
    { rb with data := rb.data ++ p }
  else
    { rb with data := rb.data.drop (rb.data.length + p.length - rb.capacity) ++ p }

/-- `ReadAll` returns (a copy of) the current contents. -/
def readAll (rb : RingBuffer) : Bytes := rb.data

/-- `Clear` resets the length to zero. -/
def clear (rb : RingBuffer) : RingBuffer := { rb with data := [] }

/-- A sequence of `Write` calls. -/
def writeAll (rb : RingBuffer) (ws : List Bytes) : RingBuffer :=
  ws.foldl write rb

end RingBuffer

/-! ## Go string primitives

Helpers mirroring the Go standard-library functions used by the driver and
the managers.  Go strings are UTF-8 byte strings; we model them as `String`
(sequences of characters) and model Go's byte-based `len` with explicit
UTF-8 byte counts. -/

/-- UTF-8 encoded size of one character. -/
def charBytes (c : Char) : Nat :=
  if c.val ≤ 0x7f then 1 else if c.val ≤ 0x7ff then 2 else if c.val ≤ 0xffff then 3 else 4

/-- Go `len(s)` for a string: its UTF-8 byte count. -/
def strBytes (s : String) : Nat := (s.toList.map charBytes).sum

/-- `unicode.IsSpace` (the White_Space property). -/
def goIsSpace (c : Char) : Bool :=
  c = ' ' || c = '\t' || c = '\n' || c.val = 0x0b || c.val = 0x0c || c = '\r' ||
  c.val = 0x85 || c.val = 0xa0 || c.val = 0x1680 ||
  (0x2000 ≤ c.val && c.val ≤ 0x200a) ||
  c.val = 0x2028 || c.val = 0x2029 || c.val = 0x202f || c.val = 0x205f || c.val = 0x3000

/-- The RE2 character class `\s` = `[\t\n\f\r ]`. -/
def regexSpace (c : Char) : Bool :=
  c = '\t' || c = '\n' || c.val = 0x0c || c = '\r' || c = ' '

/-- `strings.HasPrefix` on character lists. -/
def listStarts : List Char → List Char → Bool
  | _, [] => true
  | [], _ :: _ => false
  | a :: as, b :: bs => a = b && listStarts as bs

/-- `strings.Contains` on character lists. -/
def listHasSub (l pat : List Char) : Bool :=
  match l with
  | [] => pat.isEmpty
  | _ :: t => listStarts l pat || listHasSub t pat

/-- `strings.HasPrefix`. -/
def strStarts (s pre : String) : Bool := listStarts s.toList pre.toList

/-- `strings.Contains`. -/
def strContains (s sub : String) : Bool := listHasSub s.toList sub.toList

/-- `strings.TrimSpace` on character lists. -/
def trimChars (l : List Char) : List Char :=
  ((l.dropWhile goIsSpace).reverse.dropWhile goIsSpace).reverse

/-- `strings.TrimSpace`. -/
def goTrim (s : String) : String := String.mk (trimChars s.toList)

/-- `strings.TrimPrefix`. -/
def dropStart (s pre : String) : String :=
  if strStarts s pre then String.mk (s.toList.drop pre.toList.length) else s

/-- `strings.Split` by a single character. -/
def splitCharList (sep : Char) : List Char → List (List Char)
  | [] => [[]]
  | a :: t =>
      let r := splitCharList sep t
      if a = sep then [] :: r
      else (a :: r.headD []) :: r.tail

/-- `strings.Split(s, "\n")`. -/
def splitLines (s : String) : List String := (splitCharList '\n' s.toList).map String.mk

/-- `line[idx+len("❯"):]` where `idx = strings.Index(line, string(c))`:
everything after the first occurrence of `c`. -/
def afterFirstChar (c : Char) (s : String) : String :=
  String.mk ((s.toList.dropWhile (· ≠ c)).drop 1)

/-- `strings.ReplaceAll(s, " ✔", "")`. -/
def removeCheckMark : List Char → List Char
  | [] => []
  | [a] => [a]
  | a :: b :: t =>
      if a = ' ' && b = '✔' then removeCheckMark t else a :: removeCheckMark (b :: t)

/-- `strings.Join`. -/
def strJoin (sep : String) : List String → String
  | [] => ""
  | [x] => x
  | x :: y :: xs => x ++ sep ++ strJoin sep (y :: xs)

/-- The longest suffix obtained by dropping leading characters while the
UTF-8 size still exceeds `n` (models Go's byte-index slice `l[len(l)-n:]`
on character boundaries). -/
def dropToBytes (n : Nat) (l : List Char) : List Char :=
  match l with
  | [] => []
  | _ :: t => if (l.map charBytes).sum ≤ n then l else dropToBytes n t

/-! ## ANSI stripping — `claude.go` `ansiPattern` / `stripANSI`

The Go pattern is
`\x1b\[[0-9;?]*[a-zA-Z]|\x1b\][^\x07]*\x07|\x1b[PX^_][^\x1b]*\x1b\\|\x1b\[\?[0-9]+[hl]|\x1b\(B`
applied with `ReplaceAll` (leftmost, non-overlapping).  The fourth
alternative is subsumed by the first, which is tried before it. -/

/-- Try to match the tail of one ANSI escape sequence (the part after the
initial `ESC`), returning the remaining input on success. -/
def ansiTail (l : List Char) : Option (List Char) :=
  match l with
  | '[' :: t =>
      -- CSI: `ESC [ [0-9;?]* [a-zA-Z]`
      match t.dropWhile (fun c => c.isDigit || c = ';' || c = '?') with
      | c :: rest => if c.isAlpha then some rest else none
      | [] => none
  | ']' :: t =>
      -- OSC: `ESC ] [^BEL]* BEL`
      match t.dropWhile (fun c => c ≠ '\x07') with
      | _ :: rest => some rest
      | [] => none
  | '(' :: t =>
      -- charset select: `ESC ( B`
      match t with
      | 'B' :: rest => some rest
      | _ => none
  | c :: t =>
      if c = 'P' || c = 'X' || c = '^' || c = '_' then
        -- DCS/SOS/PM/APC: `ESC (P|X|^|_) [^ESC]* ESC \`
        match t.dropWhile (fun d => d ≠ '\x1b') with
        | _ :: '\\' :: rest => some rest
        | _ => none
      else none
  | [] => none

/-- Fuel-indexed scanner for `ReplaceAll(ansiPattern, "")`; the fuel is the
input length, and every step consumes at least one character. -/
def stripANSIAux : Nat → List Char → List Char
  | 0, l => l
  | _ + 1, [] => []
  | fuel + 1, c :: t =>
      if c = '\x1b' then
        match ansiTail t with
        | some rest => stripANSIAux fuel rest
        | none => c :: stripANSIAux fuel t
      else c :: stripANSIAux fuel t

/-- `stripANSI` removes ANSI escape sequences. -/
def stripANSI (s : String) : String :=
  String.mk (stripANSIAux s.toList.length s.toList)

/-! ## Claude driver data — `internal/driver` -/

/-- A conversation message (`driver.Message`). -/
structure Message where
  timestamp : Int
  type : String
  content : String
  deriving Repr, DecidableEq

/-- A smart event (`driver.SmartEvent`). -/
structure SmartEvent where
  kind : String
  options : List String
  prompt : String
  deriving Repr, DecidableEq

/-- `driver.ParseResult`: the raw chunk plus detected events/messages. -/
structure ParseResult where
  rawData : String
  smartEvents : List SmartEvent
  messages : List Message
  deriving Repr, DecidableEq

/-- The mutable state of `driver.ClaudeDriver` (the compiled regexes are
modelled by the matcher functions below; `maxBufferSize` is the constant
4096). -/
structure ClaudeDriver where
  buffer : String
  lastEventChunk : Int  -- declared in the Go struct but never used
  lastUserInput : String
  lastClaudeAction : String
  lastResponse : String
  lastActionResult : String
  lastActionTime : Int
  inOutputBlock : Bool
  outputLines : List String
  outputStartTime : Int
  outputBlockHeader : String
  inResponseBlock : Bool
  responseLines : List String
  responseStartTime : Int
  inResumeMenu : Bool
  lastResumeSelection : String
  resumeSelectionComplete : Bool
  lastSessionResumed : String
  deriving Repr, DecidableEq

/-- `NewClaudeDriver()`: zero values everywhere. -/
def newClaudeDriver : ClaudeDriver :=
  { buffer := "", lastEventChunk := 0, lastUserInput := "", lastClaudeAction := "",
    lastResponse := "", lastActionResult := "", lastActionTime := 0,
    inOutputBlock := false, outputLines := [], outputStartTime := 0,
    outputBlockHeader := "", inResponseBlock := false, responseLines := [],
    responseStartTime := 0, inResumeMenu := false, lastResumeSelection := "",
    resumeSelectionComplete := false, lastSessionResumed := "" }

/-- `maxBufferSize`: keep the last 4 KiB for pattern matching. -/
def maxBufferSize : Nat := 4096

/-! ## Line-level pattern matchers (the compiled regexes of `claude.go`) -/

/-- `userCommandPattern = ^>\s+(.+)$` via `FindStringSubmatch`; returns the
capture.  (Lines are produced by splitting on `'\n'`, so they contain no
newline; the final branch is the backtracking case where `.+` takes the
last whitespace character.) -/
def matchUserCommand (line : String) : Option String :=
  match line.toList with
  | '>' :: rest =>
      let w := rest.takeWhile regexSpace
      let r := rest.dropWhile regexSpace
      if w.isEmpty then none
      else if !r.isEmpty then some (String.mk r)
      else if 2 ≤ w.length then some (String.mk [w.getLastD ' '])
      else none
  | _ => none

/-- The verb alternation of `claudeActionPattern`. -/
def actionVerbs : List String := ["Write", "Read", "Edit", "Delete", "Bash", "Search"]

/-- Try one verb alternative of `claudeActionPattern` at `t1`. -/
def tryVerbAt (t1 : List Char) (v : String) : Option (String × String) :=
  if listStarts t1 v.toList then
    match t1.drop v.toList.length with
    | '(' :: u =>
        let a := u.takeWhile (· ≠ ')')
        if a.isEmpty then none
        else
          match u.dropWhile (· ≠ ')') with
          | ')' :: _ => some (v, String.mk a)
          | _ => none
    | _ => none
  else none

/-- Match the part of `claudeActionPattern` after the `●`. -/
def tryActionAt (t : List Char) : Option (String × String) :=
  actionVerbs.findSome? (tryVerbAt (t.dropWhile regexSpace))

/-- `claudeActionPattern = ●\s*(Write|Read|Edit|Delete|Bash|Search)\(([^)]+)\)`
via `FindStringSubmatch`; returns the verb and argument captures. -/
def findActionL (l : List Char) : Option (String × String) :=
  match l with
  | [] => none
  | c :: t =>
      if c = '●' then
        match tryActionAt t with
        | some va => some va
        | none => findActionL t
      else findActionL t

/-- `findActionL` on a string. -/
def findAction (line : String) : Option (String × String) := findActionL line.toList

/-- `claudeResponseStart = ●\s*(.+)`; returns the capture. -/
def findResponseL (l : List Char) : Option String :=
  match l with
  | [] => none
  | c :: t =>
      if c = '●' then
        match t with
        | [] => none
        | _ :: _ =>
            let r := t.dropWhile regexSpace
            some (String.mk (if r.isEmpty then [t.getLastD ' '] else r))
      else findResponseL t

/-- `findResponseL` on a string. -/
def findResponse (line : String) : Option String := findResponseL line.toList

/-- `claudeResultPattern = ⎿\s*(.+)`; returns the capture. -/
def findResultL (l : List Char) : Option String :=
  match l with
  | [] => none
  | c :: t =>
      if c = '⎿' then
        match t with
        | [] => none
        | _ :: _ =>
            let r := t.dropWhile regexSpace
            some (String.mk (if r.isEmpty then [t.getLastD ' '] else r))
      else findResultL t

/-- `findResultL` on a string. -/
def findResult (line : String) : Option String := findResultL line.toList

/-- Which alternative of `questionPattern` matched. -/
inductive QKind
  | yn
  | yesno
  deriving Repr, DecidableEq

/-- Character class `[yY]`. -/
def isYc (c : Char) : Bool := c = 'y' || c = 'Y'

/-- Character class `[nN]`. -/
def isNc (c : Char) : Bool := c = 'n' || c = 'N'

/-- Second alternative `\(([yY]es)/([nN]o)\)` at the current position. -/
def questionAlt2 (l : List Char) : Option QKind :=
  match l with
  | '(' :: y :: 'e' :: 's' :: '/' :: n :: 'o' :: ')' :: _ =>
      if isYc y && isNc n then some QKind.yesno else none
  | _ => none

/-- `questionPattern = \(([yY])/([nN])\)|\(([yY]es)/([nN]o)\)` at the
current position (alternatives tried left to right). -/
def questionAt (l : List Char) : Option QKind :=
  match
    (match l with
     | '(' :: y :: '/' :: n :: ')' :: _ =>
         if isYc y && isNc n then some QKind.yn else none
     | _ => none)
  with
  | some k => some k
  | none => questionAlt2 l

/-- Leftmost match of `questionPattern`. -/
def findQuestionL (l : List Char) : Option QKind :=
  match questionAt l with
  | some k => some k
  | none =>
      match l with
      | [] => none
      | _ :: t => findQuestionL t

/-- The verb alternation of `claudeMenuPattern`. -/
def menuVerbs : List String :=
  ["create", "write", "delete", "modify", "update", "remove", "edit", "overwrite"]

/-- `claudeMenuPattern = Do you want to (create|…|overwrite) .+\?` at the
current position; returns the whole match (`matches[0]`).  The greedy `.+`
stops at the last `?` of the newline-free segment, and needs at least one
character before it. -/
def menuAt (l : List Char) : Option String :=
  if listStarts l "Do you want to ".toList then
    let rest0 := l.drop 15
    match menuVerbs.find? (fun v => listStarts rest0 v.toList) with
    | some v =>
        match rest0.drop v.toList.length with
        | ' ' :: tail =>
            let seg := tail.takeWhile (· ≠ '\n')
            match seg.reverse.dropWhile (· ≠ '?') with
            | '?' :: payloadR =>
                if payloadR.isEmpty then none
                else some ("Do you want to " ++ v ++ " " ++ String.mk payloadR.reverse ++ "?")
            | _ => none
        | _ => none
    | none => none
  else none

/-- Leftmost match of `claudeMenuPattern`. -/
def findMenuL (l : List Char) : Option String :=
  match menuAt l with
  | some m => some m
  | none =>
      match l with
      | [] => none
      | _ :: t => findMenuL t

/-- `extractPrompt` (claude.go): the text after the last newline, the text
of the previous line when the buffer ends in a newline, or the whole buffer
(its last ~200 bytes) when it has no newline; trimmed. -/
def extractPrompt (data : List Char) : String :=
  if !data.contains '\n' then
    let base := if 200 < (data.map charBytes).sum then dropToBytes 200 data else data
    String.mk (trimChars base)
  else
    let afterLast := (data.reverse.takeWhile (· ≠ '\n')).reverse
    if afterLast.isEmpty then
      let upto := data.dropLast
      String.mk (trimChars ((upto.reverse.takeWhile (· ≠ '\n')).reverse))
    else String.mk (trimChars afterLast)

/-! ## Claude driver line machine — `claude.go` -/

/-- `isUINoiseOrLoading` (claude.go): UI noise classifier. -/
def isUINoiseOrLoading (line : String) : Bool :=
  if strStarts line "❯" then false
  else if strStarts line "·" && strContains line "…" then true
  else if strStarts line "─" || strStarts line "│" || strStarts line "╭" ||
      strStarts line "╰" || strStarts line "╔" || strStarts line "╚" ||
      strStarts line "├" then true
  else if strStarts line "└" && !strContains line ":" then true
  else if strContains line "shortcuts" || strContains line "Tip:" ||
      strContains line "Thinking" || strContains line "Ruminating" ||
      strContains line "Esc to" || strContains line "Press Enter to continue" ||
      strStarts line "↓" || strStarts line "↑" ||
      strContains line "A to show" || strContains line "B to toggle" ||
      strContains line "/ to search" then true
  else if (strContains line "messages · main" || strContains line "seconds ago" ||
      strContains line "minutes ago") && !strStarts line "❯" then true
  else if line = "Resume Session" || strStarts line "Resume Session" then true
  else if strStarts line "1." || strStarts line "2." || strStarts line "3." then true
  else false

/-- The resume-menu timestamp-line test inlined in `parseMessages`. -/
def isTimestampLine (line : String) : Bool :=
  strContains line " ago · " && strContains line " messages · " &&
    !strContains line "❯" && !strContains line "↑" && !strContains line "↓"

/-- `flushOutputBlock`: emit the collected output block (classified as
`action_result` or `command_output`), deduplicated against
`lastActionResult`; emission also refreshes `lastActionTime`. -/
def flushOutputBlock (d : ClaudeDriver) : ClaudeDriver × List Message :=
  if !d.inOutputBlock || d.outputLines.isEmpty then (d, [])
  else
    let fullOutput := strJoin "\n" d.outputLines
    let firstLine := d.outputLines.headD ""
    let msgType :=
      if strStarts firstLine "Wrote" || strStarts firstLine "Created" ||
          strStarts firstLine "Deleted" || strStarts firstLine "Modified" ||
          strStarts firstLine "Updated" || strStarts firstLine "Read" then
        "action_result"
      else "command_output"
    let (d1, out) :=
      if fullOutput ≠ d.lastActionResult then
        ({ d with lastActionResult := fullOutput, lastActionTime := d.outputStartTime },
          [⟨d.outputStartTime, msgType, fullOutput⟩])
      else (d, ([] : List Message))
    ({ d1 with inOutputBlock := false, outputLines := [], outputBlockHeader := "" }, out)

/-- `flushResponseBlock`: emit the collected response lines joined with a
space, only when longer than 10 bytes and distinct from `lastResponse`. -/
def flushResponseBlock (d : ClaudeDriver) : ClaudeDriver × List Message :=
  if !d.inResponseBlock || d.responseLines.isEmpty then (d, [])
  else
    let fullResponse := strJoin " " d.responseLines
    let (d1, out) :=
      if 10 < strBytes fullResponse ∧ fullResponse ≠ d.lastResponse then
        ({ d with lastResponse := fullResponse },
          [⟨d.responseStartTime, "claude_response", fullResponse⟩])
      else (d, ([] : List Message))
    ({ d1 with inResponseBlock := false, responseLines := [] }, out)

/-- One iteration of the `parseMessages` line loop (`claude.go` 162–354).
Returns the updated driver and the messages appended by this line, in
order. -/
def processLine (d : ClaudeDriver) (line0 : String) (now : Int) : ClaudeDriver × List Message :=
  let line := goTrim line0
  if line = "" ∨ strBytes line < 3 then (d, [])
  else
    -- enter resume menu
    let d :=
      if strContains line "Resume Session" then
        { d with inResumeMenu := true, lastResumeSelection := "",
                 resumeSelectionComplete := false }
      else d
    -- track the ❯ selection
    let d :=
      if d.inResumeMenu ∧ strContains line "❯" then
        let selection := String.mk (removeCheckMark (goTrim (afterFirstChar '❯' line)).toList)
        if selection ≠ "" then
          { d with lastResumeSelection := selection, resumeSelectionComplete := false }
        else d
      else d
    -- capture the timestamp line after the selection
    let d :=
      if d.inResumeMenu ∧ d.lastResumeSelection ≠ "" ∧ ¬d.resumeSelectionComplete ∧
          isTimestampLine line then
        { d with lastResumeSelection := d.lastResumeSelection ++ "\n" ++ line,
                 resumeSelectionComplete := true }
      else d
    -- exit resume menu on a new prompt, recording the selection
    let (d, m1) :=
      if d.inResumeMenu ∧ strStarts line ">" then
        let (d2, ms) :=
          if d.lastResumeSelection ≠ "" ∧ d.resumeSelectionComplete ∧
              d.lastResumeSelection ≠ d.lastSessionResumed then
            ({ d with lastSessionResumed := d.lastResumeSelection },
              [⟨now, "session_resumed", d.lastResumeSelection⟩])
          else (d, ([] : List Message))
        ({ d2 with inResumeMenu := false, lastResumeSelection := "",
                   resumeSelectionComplete := false }, ms)
      else (d, ([] : List Message))
    -- "Diagnostics" header starts a block
    if line = "Diagnostics" then
      let (d, m2) := flushOutputBlock d
      ({ d with inOutputBlock := true, outputStartTime := now,
                outputLines := ["Diagnostics:"], outputBlockHeader := "Diagnostics:" },
        m1 ++ m2)
    else
    -- tree-structured output "└ …:…"
    if strStarts line "└" ∧ strContains line ":" then
      let diagLine := goTrim (dropStart line "└")
      if d.inOutputBlock then
        ({ d with outputLines := d.outputLines ++ [diagLine] }, m1)
      else
        ({ d with inOutputBlock := true, outputStartTime := now,
                  outputLines := [diagLine], outputBlockHeader := diagLine }, m1)
    else
    -- a new prompt ends an output block
    let (d, m2) :=
      if (strStarts line ">" || line = ">") ∧ d.inOutputBlock then flushOutputBlock d
      else (d, ([] : List Message))
    let acc := m1 ++ m2
    if isUINoiseOrLoading line then (d, acc)
    else if strContains line "Interrupted" then
      let (d, m3) := flushOutputBlock d
      (d, acc ++ m3 ++ [⟨now, "agent_interrupted", line⟩])
    else
    match matchUserCommand line with
    | some cap =>
        let (d, m3) := flushOutputBlock d
        let cmd := goTrim cap
        if cmd ≠ "" ∧ cmd ≠ d.lastUserInput then
          ({ d with lastUserInput := cmd }, acc ++ m3 ++ [⟨now, "user_input", cmd⟩])
        else (d, acc ++ m3)
    | none =>
    match findAction line with
    | some (v, a) =>
        let (d, m3) := flushOutputBlock d
        let action := v ++ "(" ++ a ++ ")"
        if action ≠ d.lastClaudeAction ∨ 2 * 1000000000 < now - d.lastActionTime then
          ({ d with lastClaudeAction := action, lastActionTime := now },
            acc ++ m3 ++ [⟨now, "claude_action", action⟩])
        else (d, acc ++ m3)
    | none =>
    match findResponse line with
    | some cap =>
        let (d, m3) := flushOutputBlock d
        let (d, m4) := flushResponseBlock d
        let response := goTrim cap
        if strContains response "(" ∧ strContains response ")" then (d, acc ++ m3 ++ m4)
        else
          ({ d with inResponseBlock := true, responseStartTime := now,
                    responseLines := [response] }, acc ++ m3 ++ m4)
    | none =>
    -- response continuation (lines are already trimmed, so this branch is
    -- only reachable for lines that still start with two spaces or a tab)
    if d.inResponseBlock ∧ line ≠ "" ∧ (strStarts line "  " || strStarts line "\t") then
      let ct := goTrim line
      if ct ≠ "" then ({ d with responseLines := d.responseLines ++ [ct] }, acc)
      else (d, acc)
    else
    let (d, m5) := if d.inResponseBlock then flushResponseBlock d else (d, ([] : List Message))
    let acc := acc ++ m5
    match findResult line with
    | some cap =>
        let resultText := goTrim cap
        if strBytes resultText < 3 then (d, acc)
        else if d.inOutputBlock then
          ({ d with outputLines := d.outputLines ++ [resultText] }, acc)
        else
          ({ d with inOutputBlock := true, outputStartTime := now,
                    outputLines := [resultText], outputBlockHeader := resultText }, acc)
    | none =>
    if d.inOutputBlock ∧ line ≠ "" then
      ({ d with outputLines := d.outputLines ++ [line] }, acc)
    else (d, acc)

/-- `parseMessages` (claude.go): split the ANSI-stripped chunk on newlines,
run the line machine, and flush any pending response block at the end. -/
def parseMessages (d : ClaudeDriver) (chunk : String) (now : Int) :
    ClaudeDriver × List Message :=
  let lines := splitLines (stripANSI chunk)
  let (d, msgs) :=
    lines.foldl
      (fun (st : ClaudeDriver × List Message) line =>
        let (d2, ms) := processLine st.1 line now
        (d2, st.2 ++ ms))
      (d, [])
  let (d, mr) := flushResponseBlock d
  (d, msgs ++ mr)

/-- `ClaudeDriver.Parse` (claude.go 93–154).  The Go method returns
`(*ParseResult, error)`; its body has a single `return result, nil`, which
the final `Option String` (the error value) records. -/
def claudeParse (d : ClaudeDriver) (chunk : String) (now : Int) :
    ParseResult × ClaudeDriver × Option String :=
  let d := { d with buffer := d.buffer ++ chunk }
  let d :=
    if maxBufferSize < strBytes d.buffer then
      { d with buffer := String.mk (dropToBytes maxBufferSize d.buffer.toList) }
    else d
  let clean := stripANSI d.buffer
  let questionEvents :=
    match findQuestionL clean.toList with
    | some QKind.yn => [SmartEvent.mk "question" ["y", "n"] (extractPrompt clean.toList)]
    | some QKind.yesno => [SmartEvent.mk "question" ["yes", "no"] (extractPrompt clean.toList)]
    | none => []
  let menuEvents :=
    match findMenuL clean.toList with
    | some prompt => [SmartEvent.mk "claude_confirm" ["1", "2", "esc"] prompt]
    | none => []
  let (d, msgs) := parseMessages d chunk now
  (⟨chunk, questionEvents ++ menuEvents, msgs⟩, d, none)

/-- `ClaudeDriver.Reset` (claude.go 507–517). -/
def claudeReset (d : ClaudeDriver) : ClaudeDriver :=
  { d with buffer := "", inOutputBlock := false, outputLines := [],
           outputBlockHeader := "", inResponseBlock := false, responseLines := [],
           inResumeMenu := false, lastResumeSelection := "",
           resumeSelectionComplete := false }

/-- `ClaudeDriver.Flush` (claude.go 521–548): drain a pending output block
(without refreshing `lastActionTime`, unlike `flushOutputBlock`). -/
def claudeFlush (d : ClaudeDriver) : ClaudeDriver × List Message :=
  if d.inOutputBlock ∧ ¬d.outputLines.isEmpty then
    let fullOutput := strJoin "\n" d.outputLines
    let firstLine := d.outputLines.headD ""
    let msgType :=
      if strStarts firstLine "Wrote" || strStarts firstLine "Created" ||
          strStarts firstLine "Deleted" || strStarts firstLine "Modified" ||
          strStarts firstLine "Updated" || strStarts firstLine "Read" then
        "action_result"
      else "command_output"
    let (d1, out) :=
      if fullOutput ≠ d.lastActionResult then
        ({ d with lastActionResult := fullOutput },
          [Message.mk d.outputStartTime msgType fullOutput])
      else (d, ([] : List Message))
    ({ d1 with inOutputBlock := false, outputLines := [], outputBlockHeader := "" }, out)
  else (d, [])

/-! ## WebSocket hub and broadcast path — `internal/ws` -/

/-- The marshalled `payload` of a frame (the Go code JSON-encodes the event
or message; delivery is modelled structurally). -/
inductive FramePayload
  | event (e : SmartEvent)
  | msg (m : Message)
  deriving Repr, DecidableEq

/-- A server→client frame (`ws.Message`). -/
structure WsFrame where
  type : String
  data : String := ""
  payload : Option FramePayload := none
  state : String := ""
  code : Option Int := none
  error : String := ""
  deriving Repr, DecidableEq

/-- One attachment (`ws.Client`): the outbound frame queue (Go channel of
capacity 256) and the closed flag. -/
structure Client where
  queue : List WsFrame
  closed : Bool
  deriving Repr, DecidableEq

/-- `Client.Send` (hub.go 64–78): drop when closed, enqueue when there is
room, otherwise close the client (slow-consumer policy). -/
def clientSend (c : Client) (m : WsFrame) : Client :=
  if c.closed then c
  else if c.queue.length < 256 then { c with queue := c.queue ++ [m] }
  else { c with closed := true }

/-- The per-session hub (`ws.Hub`): its registered clients. -/
structure Hub where
  clients : List Client
  deriving Repr, DecidableEq

/-- `Hub.BroadcastMessage`/`Hub.Broadcast` (hub.go 180–197): send the frame
to every client.  (`json.Marshal` of a `ws.Message` cannot fail, so the
marshalling error branch is not represented.) -/
def broadcastMessage (h : Hub) (m : WsFrame) : Hub :=
  { clients := h.clients.map (clientSend · m) }

/-- `Handler.BroadcastOutput` (ws handler, lines 290–338) for a session
bound to the Claude driver: parse the chunk through the driver; on a driver
error fall back to a bare `ParseResult{RawData: data}`; then broadcast one
`stdout` frame carrying the raw bytes, one `smart_event` frame per smart
event and one `conversation` frame per message, in that order. -/
def broadcastOutput (h : Hub) (d : ClaudeDriver) (data : String) (now : Int) :
    Hub × ClaudeDriver :=
  let parsed := claudeParse d data now
  let result :=
    match parsed.2.2 with
    | some _ => ({ rawData := data, smartEvents := [], messages := [] } : ParseResult)
    | none => parsed.1
  let h := broadcastMessage h { type := "stdout", data := result.rawData }
  let h := result.smartEvents.foldl
    (fun h e => broadcastMessage h { type := "smart_event", payload := some (.event e) }) h
  let h := result.messages.foldl
    (fun h m => broadcastMessage h { type := "conversation", payload := some (.msg m) }) h
  (h, parsed.2.1)

/-! ## PTY process — `internal/pty` -/

/-- Events on the PTY input path (master writes, `"i"` log records, and the
deliberate sleeps of the structured-write policy). -/
inductive PtyEvent
  | write (b : Bytes)
  | logInput (b : Bytes)
  | sleepMs (n : Nat)
  deriving Repr, DecidableEq

/-- `KeyCtrlU = "\x15"`. -/
def keyCtrlU : Bytes := [0x15]

/-- `KeyEnter = "\r"`. -/
def keyEnter : Bytes := [0x0d]

/-- `PTYProcess.WriteCommand` (pty manager, lines 436–495): the trace of
master writes, log records and sleeps it performs, or the `closed` error.
PTY writes are assumed to succeed (the claim concerns the write policy). -/
def writeCommand (closed : Bool) (command : Bytes) : Except String (List PtyEvent) :=
  if closed then .error "process is closed"
  else
    let hasEnter := command ≠ [] ∧ (command.getLastD 0 = 0x0d ∨ command.getLastD 0 = 0x0a)
    let cmdText := if hasEnter then command.dropLast else command
    .ok ([.write keyCtrlU, .logInput keyCtrlU, .sleepMs 500] ++
      (if cmdText ≠ [] then [.write cmdText, .logInput cmdText] else []) ++
      [.sleepMs 500] ++
      (if hasEnter then [.write keyEnter, .logInput keyEnter] else []))

/-- The chunks written to the PTY master in a trace. -/
def masterWrites (tr : List PtyEvent) : List Bytes :=
  tr.filterMap fun e => match e with | .write b => some b | _ => none

/-- The chunks recorded as `"i"` events in a trace. -/
def loggedInputs (tr : List PtyEvent) : List Bytes :=
  tr.filterMap fun e => match e with | .logInput b => some b | _ => none

/-- Outcome of Go `exec.Cmd.Wait`: success, an `*exec.ExitError` with an
exit code, or some other error. -/
inductive CmdWaitOutcome
  | success
  | exitError (code : Int)
  | otherError (msg : String)
  deriving Repr, DecidableEq

/-- `Process.Wait` (pty.go 69–80): the `(exit code, error)` pair returned
for each `Cmd.Wait` outcome. -/
def processWait : CmdWaitOutcome → Int × Option String
  | .success => (0, none)
  | .exitError c => (c, none)
  | .otherError m => (-1, some m)

/-- One step of `splitCommand`'s quote-aware scanner (pty manager,
lines 595–632). -/
def splitCommandStep (st : List String × List Char × Bool × Char) (r : Char) :
    List String × List Char × Bool × Char :=
  let (parts, current, inQuote, qc) := st
  if r = '"' ∨ r = '\'' then
    if inQuote then
      if r = qc then (parts, current, false, Char.ofNat 0)
      else (parts, current ++ [r], inQuote, qc)
    else (parts, current, true, r)
  else if r = ' ' ∨ r = '\t' then
    if inQuote then (parts, current ++ [r], inQuote, qc)
    else if current ≠ [] then (parts ++ [String.mk current], [], inQuote, qc)
    else st
  else (parts, current ++ [r], inQuote, qc)

/-- `splitCommand`: tokenize a command string with basic quoting. -/
def splitCommand (cmd : String) : List String :=
  let (parts, current, _, _) :=
    cmd.toList.foldl splitCommandStep ([], [], false, Char.ofNat 0)
  if current ≠ [] then parts ++ [String.mk current] else parts

/-! ## Session model, store and manager — `internal/model`,
`internal/repository`, `internal/session` -/

/-- `model.SessionStatus`. -/
inductive SessionStatus
  | running
  | exited
  | failed
  deriving Repr, DecidableEq

/-- `model.Session` (timestamps as `Int`; `PreviewLine` omitted — nothing
modelled here touches it). -/
structure Session where
  id : String
  userId : String
  name : String
  command : String
  workdir : String
  env : List (String × String)
  status : SessionStatus
  exitCode : Option Int
  pid : Option Int
  logFilePath : String
  createdAt : Int
  updatedAt : Int
  deriving Repr, DecidableEq

/-- The persisted `sessions` table, one `Session` value per row. -/
abbrev Store := List Session

/-- Row lookup by primary key. -/
def rowById (st : Store) (id : String) : Option Session :=
  st.find? fun r => r.id == id

/-- `SessionRepository.UpdateStatus` (repository, lines 338–360): set
status, exit code and `updated_at`; `ErrSessionNotFound` on zero rows. -/
def updateStatus (st : Store) (id : String) (status : SessionStatus)
    (exitCode : Option Int) (now : Int) : Except String Store :=
  if st.any (fun r => r.id == id) then
    .ok (st.map fun r =>
      if r.id == id then { r with status := status, exitCode := exitCode, updatedAt := now }
      else r)
  else .error "session not found"

/-- `SessionRepository.CountActiveByUser` (repository, lines 379–393):
`COUNT(*) WHERE user_id = ? AND status = 'running'`. -/
def countActiveByUser (st : Store) (userId : String) : Nat :=
  (st.filter fun r => r.userId == userId && r.status == SessionStatus.running).length

/-- `SessionRepository.Create`: insert one row. -/
def repoCreate (st : Store) (s : Session) : Store := st ++ [s]

/-- `SessionRepository.Delete` (repository, lines 317–335):
`ErrSessionNotFound` on zero rows. -/
def repoDelete (st : Store) (id : String) : Except String Store :=
  if st.any (fun r => r.id == id) then .ok (st.filter fun r => !(r.id == id))
  else .error "session not found"

/-- The in-memory PTY process as the session manager sees it: the argv the
child was started with, its pid, and the closed flag. -/
structure Proc where
  argv : List String
  pid : Int
  closed : Bool
  deriving Repr, DecidableEq

/-- `pty.Manager.Spawn` (pty manager, lines 113–240), restricted to its
command handling: validation, tokenization, and the platform `Start` call,
which `startOk` abstracts (together with logger and workdir I/O, the other
failure sources of the omitted steps); `childPid` is the started child's
pid. -/
def ptySpawn (sess : Session) (startOk : Bool) (childPid : Int) : Except String Proc :=
  if sess.command = "" then .error "command is required"
  else
    let parts := splitCommand sess.command
    if parts = [] then .error "invalid command"
    else if startOk then .ok { argv := parts, pid := childPid, closed := false }
    else .error "failed to start PTY"

/-- The two driver variants a session can be bound to. -/
inductive DriverKind
  | claude
  | generic
  deriving Repr, DecidableEq

/-- `Manager.createDriver` (session/manager.go 232–240): the Claude driver
iff the command contains `"claude"` (the source's `contains` helper is
plain substring search, despite its comment). -/
def createDriverFor (command : String) : DriverKind :=
  if strContains command "claude" then .claude else .generic

/-- `session.SessionContext`. -/
structure SessionCtx where
  session : Session
  proc : Option Proc
  driver : DriverKind
  deriving Repr, DecidableEq

/-- The session manager's mutable state: the store and the in-memory
context map. -/
structure MgrState where
  store : Store
  sessions : List (String × SessionCtx)
  deriving Repr, DecidableEq

/-- In-memory context lookup. -/
def lookupCtx (m : MgrState) (id : String) : Option SessionCtx :=
  (m.sessions.find? fun p => p.1 == id).map Prod.snd

/-- Insert or replace an in-memory context. -/
def setCtx (m : MgrState) (id : String) (ctx : SessionCtx) : MgrState :=
  if m.sessions.any (fun p => p.1 == id) then
    { m with sessions := m.sessions.map fun p => if p.1 == id then (id, ctx) else p }
  else { m with sessions := m.sessions ++ [(id, ctx)] }

/-- `Manager.IsSessionRunning` (session/manager.go 269–281): a context with
a live, non-closed PTY process. -/
def isSessionRunning (m : MgrState) (id : String) : Bool :=
  match lookupCtx m id with
  | none => false
  | some ctx =>
      match ctx.proc with
      | none => false
      | some p => !p.closed

/-- `Manager.handleProcessExit` (session/manager.go 206–229): `err ≠ nil ⇒
failed`, otherwise `exited`; write status and exit code to the store (a
store failure is only logged) and to the in-memory session. -/
def handleProcessExit (m : MgrState) (id : String) (exitCode : Int)
    (err : Option String) (now : Int) : MgrState :=
  let status := if err.isSome then SessionStatus.failed else SessionStatus.exited
  let store :=
    match updateStatus m.store id status (some exitCode) now with
    | .ok st => st
    | .error _ => m.store
  let sessions := m.sessions.map fun p =>
    if p.1 == id then
      (p.1, { p.2 with session :=
        { p.2.session with status := status, exitCode := some exitCode, updatedAt := now } })
    else p
  { store := store, sessions := sessions }

/-- The errors `Manager.Create` can return. -/
inductive CreateErr
  | validation (msg : String)
  | countFailed (msg : String)
  | limitReached (maxSessions : Nat)
  | persistFailed (msg : String)
  | spawnFailed (msg : String)
  deriving Repr, DecidableEq

/-- The `error.Error()` string each `CreateErr` renders to in the Go code
(`limitReached` is `fmt.Errorf("maximum active sessions (%d) reached for
user", …)`). -/
def createErrMessage : CreateErr → String
  | .validation m => m
  | .countFailed m => "failed to count active sessions: " ++ m
  | .limitReached mx => "maximum active sessions (" ++ toString mx ++ ") reached for user"
  | .persistFailed m => "failed to persist session: " ++ m
  | .spawnFailed m => "failed to spawn PTY: " ++ m

/-- `model.CreateSessionRequest`. -/
structure CreateSessionRequest where
  command : String
  name : String
  workdir : String
  env : List (String × String)
  userId : String
  deriving Repr, DecidableEq

deriving instance DecidableEq for Except

/-- What a `Manager.Create` call produced: the returned value or error, the
resulting store and context map, and every child process started during the
call. -/
structure CreateOutcome where
  result : Except CreateErr Session
  store : Store
  sessions : List (String × SessionCtx)
  spawned : List Proc
  deriving Repr, DecidableEq

/-- `NewManager` (session/manager.go 45–57): a configured
`MaxSessionsPerUser` of 0 defaults to 10. -/
def resolveMaxSessions (configured : Nat) : Nat :=
  if configured = 0 then 10 else configured

/-- `Manager.Create` (session/manager.go 60–144).  `newId` stands for the
generated UUIDv4, `now` for `time.Now()`, `startOk`/`childPid` for the
platform process start. -/
def managerCreate (m : MgrState) (maxSessions : Nat) (logDir : String)
    (req : CreateSessionRequest) (newId : String) (now : Int) (startOk : Bool)
    (childPid : Int) : CreateOutcome :=
  if req.command = "" then
    ⟨.error (.validation "command is required"), m.store, m.sessions, []⟩
  else
    let active := countActiveByUser m.store req.userId
    if maxSessions ≤ active then
      ⟨.error (.limitReached maxSessions), m.store, m.sessions, []⟩
    else
      let logFilePath := logDir ++ "/" ++ newId ++ ".cast"
      -- the Go code builds the session and then defaults an empty name
      let name := if req.name = "" then "Session " ++ String.mk (newId.toList.take 8) else req.name
      let sess0 : Session :=
        { id := newId, userId := req.userId, name := name, command := req.command,
          workdir := req.workdir, env := req.env, status := .running, exitCode := none,
          pid := none, logFilePath := logFilePath, createdAt := now, updatedAt := now }
      let store := repoCreate m.store sess0
      match ptySpawn sess0 startOk childPid with
      | .error e =>
          -- rollback: delete the persisted row
          let store := match repoDelete store newId with | .ok st => st | .error _ => store
          ⟨.error (.spawnFailed e), store, m.sessions, []⟩
      | .ok proc =>
          let sess := { sess0 with pid := some proc.pid }
          let ctx : SessionCtx :=
            { session := sess, proc := some proc, driver := createDriverFor req.command }
          let m2 := setCtx { store := store, sessions := m.sessions } newId ctx
          ⟨.ok sess, m2.store, m2.sessions, [proc]⟩

/-- The HTTP `Create` handler's error classification
(api/handlers/session.go 147–159): the `errors.Is(err, ErrCommandRequired)`
branch, then the "maximum active sessions" message test, then 500. -/
def classifyCreateError (mgrMax : Nat) (e : CreateErr) : Nat × String :=
  if e = .validation "command is required" then (400, "VALIDATION_ERROR")
  else if createErrMessage e =
      "maximum active sessions (" ++ String.mk [Char.ofNat (mgrMax + 48)] ++ ") reached for user"
    ∨ strContains (createErrMessage e) "maximum active sessions" then
    (429, "LIMIT_EXCEEDED")
  else (500, "INTERNAL_ERROR")

/-- `Manager.Restart` (session/manager.go 284–358).  `startOk`/`childPid`
abstract the platform process start, `now` is `time.Now()`.  Two aspects of
the source are reproduced exactly: the rewritten `command` is used only to
choose the driver (the spawn reads `sess.Command`, which is never
rewritten), and the spawn-failure path writes status `exited` with
`sess.ExitCode`, which was already set to `nil` before the spawn. -/
def managerRestart (m : MgrState) (id : String) (now : Int) (startOk : Bool)
    (childPid : Int) : MgrState × Except String Session :=
  let sessOpt :=
    match lookupCtx m id with
    | some ctx => some ctx.session
    | none => rowById m.store id
  match sessOpt with
  | none => (m, .error "session not found")
  | some sess =>
      if isSessionRunning m id then (m, .error "session is already running")
      else
        match
          (if sess.status = .running then updateStatus m.store id .exited none now
           else .ok m.store)
        with
        | .error e => (m, .error ("failed to update session status: " ++ e))
        | .ok store1 =>
            let sess := if sess.status = .running then { sess with status := .exited } else sess
            let command :=
              if strContains sess.command "claude" ∧ ¬strContains sess.command "--resume" then
                "claude --resume"
              else sess.command
            let sess := { sess with status := .running, exitCode := none, updatedAt := now }
            match updateStatus store1 id .running none now with
            | .error e =>
                ({ m with store := store1 }, .error ("failed to update session status: " ++ e))
            | .ok store2 =>
                match ptySpawn sess startOk childPid with
                | .error e =>
                    -- "Revert status on failure" (the UpdateStatus error is discarded)
                    let store3 :=
                      match updateStatus store2 id .exited sess.exitCode now with
                      | .ok st => st
                      | .error _ => store2
                    ({ m with store := store3 }, .error ("failed to spawn PTY: " ++ e))
                | .ok proc =>
                    let ctx : SessionCtx :=
                      { session := sess, proc := some proc,
                        driver := createDriverFor command }
                    (setCtx { m with store := store2 } id ctx, .ok sess)

/-! ## Spec-side helper definitions

These restate notions in the words of the spec/claims, for comparison with
the source-derived definitions above. -/

/-- Spec-side: "the payload ended with `\r` or `\n`". -/
def endsWithTerm (payload : Bytes) : Bool :=
  match payload.getLast? with
  | some b => b = 0x0d || b = 0x0a
  | none => false

/-- Spec-side: "the payload with its trailing `\r` or `\n` removed". -/
def stripTerm (payload : Bytes) : Bytes :=
  if endsWithTerm payload then payload.dropLast else payload

/-- The persisted status of a row. -/
def rowStatus (st : Store) (id : String) : Option SessionStatus :=
  (rowById st id).map Session.status

/-- The persisted exit code of a row. -/
def rowExit (st : Store) (id : String) : Option (Option Int) :=
  (rowById st id).map Session.exitCode

/-- The in-memory session status of a context. -/
def ctxStatus (m : MgrState) (id : String) : Option SessionStatus :=
  (lookupCtx m id).map (fun c => c.session.status)

/-- The in-memory exit code of a context. -/
def ctxExit (m : MgrState) (id : String) : Option (Option Int) :=
  (lookupCtx m id).map (fun c => c.session.exitCode)

/-! ## Theorems -/

theorem lastN_length (n : Nat) (l : Bytes) : (lastN n l).length = min l.length n := by
  simp only [lastN, List.length_drop]
  omega

/-- One `write` step preserves the "last `C` bytes of everything written"
invariant. -/
theorem RingBuffer.write_lastN (C : Nat) (hC : 0 < C) (S p : Bytes) :
    RingBuffer.write { data := lastN C S, capacity := C } p =
      { data := lastN C (S ++ p), capacity := C } := by
  by_cases hp : p = []
  · subst hp; simp [RingBuffer.write]
  · by_cases h1 : C ≤ p.length
    · -- the incoming chunk alone fills the buffer
      simp only [RingBuffer.write, if_neg hp, if_pos h1, RingBuffer.mk.injEq, and_true]
      have : S.length + p.length - C = S.length + (p.length - C) := by omega
      simp only [lastN, List.length_append, this, ← List.drop_drop, List.drop_left]
    · by_cases h2 : (lastN C S).length + p.length ≤ C
      · -- plain append
        simp only [RingBuffer.write, if_neg hp, if_neg h1, if_pos h2, RingBuffer.mk.injEq,
          and_true]
        have hSlen : (lastN C S).length = min S.length C := lastN_length C S
        have hS : S.length ≤ C := by
          rcases Nat.lt_or_ge S.length C with h | h
          · omega
          · -- buffer already full: impossible since `p` is non-empty
            exfalso
            have hplen : 0 < p.length := List.length_pos.mpr hp
            omega
        have hSeq : lastN C S = S := by
          simp only [lastN, Nat.sub_eq_zero_of_le hS, List.drop_zero]
        rw [hSeq]
        simp only [lastN, List.length_append, Nat.sub_eq_zero_of_le (by omega :
          S.length + p.length ≤ C), List.drop_zero]
      · -- overflow: drop the oldest bytes
        simp only [RingBuffer.write, if_neg hp, if_neg h1, if_neg h2, RingBuffer.mk.injEq,
          and_true]
        have hSlen : (lastN C S).length = min S.length C := lastN_length C S
        have hple : p.length ≤ C := by omega
        rcases Nat.lt_or_ge S.length C with hS | hS
        · -- the stored prefix is all of S
          have hSeq : lastN C S = S := by
            simp only [lastN, Nat.sub_eq_zero_of_le (Nat.le_of_lt hS), List.drop_zero]
          rw [hSeq, hSeq] at *
          have hd : S.length + p.length - C ≤ S.length := by omega
          simp only [lastN, List.length_append,
            List.drop_append_of_le_length hd]
        · -- the stored prefix is the last C bytes of S
          have hdata : (lastN C S).length = C := by omega
          rw [hdata]
          have : C + p.length - C = p.length := by omega
          rw [this]
          simp only [lastN, List.drop_drop, List.length_append]
          have hd : S.length + p.length - C ≤ S.length := by omega
          rw [List.drop_append_of_le_length hd]
          congr 2
          omega

/-- Folding `write` over a list of chunks keeps the invariant. -/
theorem RingBuffer.writeAll_lastN (C : Nat) (hC : 0 < C) (ws : List Bytes) (S : Bytes) :
    RingBuffer.writeAll { data := lastN C S, capacity := C } ws =
      { data := lastN C (S ++ ws.flatten), capacity := C } := by
  induction ws generalizing S with
  | nil => simp [RingBuffer.writeAll]
  | cons p ws ih =>
    simp only [RingBuffer.writeAll, List.foldl_cons] at *
    rw [RingBuffer.write_lastN C hC S p, ih (S ++ p)]
    simp [List.append_assoc]

/-- C2.  For a ring buffer of (positive) capacity `C` and any sequence of
writes whose concatenation has `N` bytes, after the writes the buffer holds
exactly `min N C` bytes, and `ReadAll` returns exactly the last `min N C`
bytes of the concatenation, in order.  (`lastN (min N C)` and `lastN C`
agree, so this is precisely the "last min(N,C) bytes" reading.) -/
theorem ringBuffer_holds_last_minNC (C : Int) (hC : 0 < C) (ws : List Bytes) :
    ((RingBuffer.new C).writeAll ws).readAll =
        lastN (min ws.flatten.length C.toNat) ws.flatten ∧
      ((RingBuffer.new C).writeAll ws).data.length = min ws.flatten.length C.toNat := by
  have hC' : 0 < C.toNat := by omega
  have hnew : RingBuffer.new C = { data := lastN C.toNat [], capacity := C.toNat } := by
    simp [RingBuffer.new, lastN, if_neg (by omega : ¬ C ≤ 0)]
  rw [hnew, RingBuffer.writeAll_lastN C.toNat hC' ws []]
  constructor
  · simp only [RingBuffer.readAll, List.nil_append, lastN, List.length_drop]
    congr 1
    omega
  · simp only [List.nil_append, lastN_length]

/-- Witness for C2: three writes into a buffer of capacity 4 retain the last
four bytes in order. -/
theorem ringBuffer_holds_last_minNC_witness :
    (0 : Int) < 4 ∧
      ((RingBuffer.new 4).writeAll [[1, 2], [3], [4, 5, 6]]).readAll =
        lastN (min ([[1, 2], [3], [4, 5, 6]] : List Bytes).flatten.length (4 : Int).toNat)
          ([[1, 2], [3], [4, 5, 6]] : List Bytes).flatten :=
  ⟨by norm_num, (ringBuffer_holds_last_minNC 4 (by norm_num) [[1, 2], [3], [4, 5, 6]]).1⟩


/-- The source's terminator test (`hasEnter`) agrees with the spec-side
`endsWithTerm`: non-empty and ending in `\r` or `\n`. -/
theorem hasEnter_iff_endsWithTerm (payload : Bytes) :
    (payload ≠ [] ∧ (payload.getLastD 0 = 0x0d ∨ payload.getLastD 0 = 0x0a)) ↔
      endsWithTerm payload = true := by
  rcases List.eq_nil_or_concat payload with h | ⟨l, a, h⟩ <;> subst h
  · simp [endsWithTerm]
  · simp [endsWithTerm, List.getLastD_concat, List.getLast?_concat]

/-- C3.  `WriteCommand` on a non-closed process performs exactly: write
`\x15`, pause, write the payload with its trailing terminator removed
(omitted when empty), pause, write `\r` iff the payload ended with `\r` or
`\n`; the master receives exactly those bytes in order, and each written
piece is recorded as an `"i"` log event (the log records equal the writes,
piece by piece). -/
theorem claim_write_command_policy (payload : Bytes) :
    ∃ tr, writeCommand false payload = Except.ok tr ∧
      tr = [PtyEvent.write keyCtrlU, PtyEvent.logInput keyCtrlU, PtyEvent.sleepMs 500] ++
        (if stripTerm payload ≠ [] then
          [PtyEvent.write (stripTerm payload), PtyEvent.logInput (stripTerm payload)]
        else []) ++
        [PtyEvent.sleepMs 500] ++
        (if endsWithTerm payload then [PtyEvent.write keyEnter, PtyEvent.logInput keyEnter]
         else []) ∧
      (masterWrites tr).flatten =
        keyCtrlU ++ stripTerm payload ++ (if endsWithTerm payload then keyEnter else []) ∧
      loggedInputs tr = masterWrites tr := by
  by_cases hE : endsWithTerm payload = true
  · have hasE : (payload ≠ [] ∧ (payload.getLastD 0 = 0x0d ∨ payload.getLastD 0 = 0x0a)) :=
      (hasEnter_iff_endsWithTerm payload).mpr hE
    have hstrip : stripTerm payload = payload.dropLast := by
      simp [stripTerm, hE]
    refine ⟨_, ?_, rfl, ?_, ?_⟩
    · simp only [writeCommand, if_neg (by simp : ¬(false = true)), if_pos hasE, hstrip, hE,
        if_pos trivial]
    · by_cases hc : stripTerm payload = []
      · simp [masterWrites, hc, hE, keyCtrlU, keyEnter, List.filterMap]
      · simp [masterWrites, hc, hE, List.filterMap]
    · by_cases hc : stripTerm payload = []
      · simp [masterWrites, loggedInputs, hc, hE, List.filterMap]
      · simp [masterWrites, loggedInputs, hc, hE, List.filterMap]
  · have hasE : ¬(payload ≠ [] ∧ (payload.getLastD 0 = 0x0d ∨ payload.getLastD 0 = 0x0a)) := by
      intro h
      exact hE ((hasEnter_iff_endsWithTerm payload).mp h)
    have hstrip : stripTerm payload = payload := by
      simp [stripTerm, hE]
    refine ⟨_, ?_, rfl, ?_, ?_⟩
    · simp only [writeCommand, if_neg (by simp : ¬(false = true)), if_neg hasE, hstrip, hE,
        if_neg (by simp : ¬(False : Prop))]
    · by_cases hc : stripTerm payload = []
      · simp [masterWrites, hc, hE, keyCtrlU, keyEnter, List.filterMap]
      · simp [masterWrites, hc, hE, List.filterMap]
    · by_cases hc : stripTerm payload = []
      · simp [masterWrites, loggedInputs, hc, hE, List.filterMap]
      · simp [masterWrites, loggedInputs, hc, hE, List.filterMap]

/-- C10.  The Claude driver's `Parse` never returns a non-nil error (its
body has a single `return result, nil`), so the driver-error fallback in
`BroadcastOutput` is unreachable: the broadcast is exactly the frames built
from the driver's actual parse result (one `stdout` frame with the raw
bytes, then the `smart_event` frames, then the `conversation` frames), and
the driver state advances to the parse's state. -/
theorem claim_parse_never_errors (d : ClaudeDriver) (chunk : String) (now : Int) (h : Hub) :
    (claudeParse d chunk now).2.2 = none ∧
    (broadcastOutput h d chunk now).1 =
      (claudeParse d chunk now).1.messages.foldl
        (fun hh m => broadcastMessage hh { type := "conversation", payload := some (.msg m) })
        ((claudeParse d chunk now).1.smartEvents.foldl
          (fun hh e => broadcastMessage hh { type := "smart_event", payload := some (.event e) })
          (broadcastMessage h
            { type := "stdout", data := (claudeParse d chunk now).1.rawData })) ∧
    (broadcastOutput h d chunk now).2 = (claudeParse d chunk now).2.1 :=
  ⟨rfl, rfl, rfl⟩

/-- `Client.Send` never removes a frame already queued. -/
theorem mem_queue_clientSend (c : Client) (m x : WsFrame) (hx : x ∈ c.queue) :
    x ∈ (clientSend c m).queue := by
  by_cases h1 : c.closed = true
  · simpa [clientSend, h1] using hx
  · by_cases h2 : c.queue.length < 256
    · simp only [clientSend, if_neg h1, if_pos h2]
      exact List.mem_append_left _ hx
    · simpa [clientSend, h1, h2] using hx

/-- Broadcasting any sequence of frames preserves a queued frame of any
client: its image in the resulting hub still holds the frame. -/
theorem fold_broadcast_mem {α : Type} (g : α → WsFrame) (l : List α) (h : Hub) (c : Client)
    (x : WsFrame) (hc : c ∈ h.clients) (hx : x ∈ c.queue) :
    ∃ c2 ∈ (l.foldl (fun hh e => broadcastMessage hh (g e)) h).clients, x ∈ c2.queue := by
  induction l generalizing h c with
  | nil => exact ⟨c, hc, hx⟩
  | cons e t ih =>
    simp only [List.foldl_cons]
    exact ih (broadcastMessage h (g e)) (clientSend c (g e))
      (List.mem_map_of_mem _ hc) (mem_queue_clientSend c (g e) x hx)

/-- C1.  `Parse` carries the raw chunk unmodified (`RawData = chunk`), and
`BroadcastOutput` delivers to every open, non-full attachment a `stdout`
frame whose data is exactly the raw chunk — never the ANSI-stripped text. -/
theorem claim_stdout_raw_bytes (d : ClaudeDriver) (chunk : String) (now : Int) (h : Hub)
    (c : Client) (hc : c ∈ h.clients) (hopen : c.closed = false)
    (hroom : c.queue.length < 256) :
    (claudeParse d chunk now).1.rawData = chunk ∧
    ∃ c2 ∈ (broadcastOutput h d chunk now).1.clients,
      ({ type := "stdout", data := chunk } : WsFrame) ∈ c2.queue := by
  refine ⟨rfl, ?_⟩
  have hunfold : (broadcastOutput h d chunk now).1 =
      (claudeParse d chunk now).1.messages.foldl
        (fun hh m => broadcastMessage hh { type := "conversation", payload := some (.msg m) })
        ((claudeParse d chunk now).1.smartEvents.foldl
          (fun hh e => broadcastMessage hh { type := "smart_event", payload := some (.event e) })
          (broadcastMessage h ({ type := "stdout", data := chunk } : WsFrame))) := rfl
  rw [hunfold]
  have hmem0 : clientSend c ({ type := "stdout", data := chunk } : WsFrame) ∈
      (broadcastMessage h ({ type := "stdout", data := chunk } : WsFrame)).clients :=
    List.mem_map_of_mem _ hc
  have hx0 : ({ type := "stdout", data := chunk } : WsFrame) ∈
      (clientSend c ({ type := "stdout", data := chunk } : WsFrame)).queue := by
    simp only [clientSend, hopen, if_neg (by simp : ¬(false = true)), if_pos hroom]
    exact List.mem_append_right _ (List.mem_singleton.mpr rfl)
  obtain ⟨c1, hc1, hx1⟩ := fold_broadcast_mem
    (fun e => ({ type := "smart_event", payload := some (.event e) } : WsFrame))
    (claudeParse d chunk now).1.smartEvents _ _ _ hmem0 hx0
  exact fold_broadcast_mem
    (fun m => ({ type := "conversation", payload := some (.msg m) } : WsFrame))
    (claudeParse d chunk now).1.messages _ _ _ hc1 hx1

/-- Witness for C1: one open client with an empty queue receives the raw
chunk (ANSI escape included) as the `stdout` frame. -/
theorem claim_stdout_raw_bytes_witness :
    (⟨[], false⟩ : Client) ∈ (Hub.mk [⟨[], false⟩]).clients ∧
    (Client.mk [] false).closed = false ∧ (Client.mk [] false).queue.length < 256 ∧
    ((claudeParse newClaudeDriver "a\x1b[31mred" 0).1.rawData = "a\x1b[31mred" ∧
      ∃ c2 ∈ (broadcastOutput (Hub.mk [⟨[], false⟩]) newClaudeDriver "a\x1b[31mred" 0).1.clients,
        ({ type := "stdout", data := "a\x1b[31mred" } : WsFrame) ∈ c2.queue) :=
  ⟨by simp, rfl, by norm_num,
    claim_stdout_raw_bytes newClaudeDriver "a\x1b[31mred" 0 (Hub.mk [⟨[], false⟩])
      ⟨[], false⟩ (by simp) rfl (by norm_num)⟩

/-- Updating a row's status/exit code commutes with `rowById`. -/
theorem rowById_map_update (st : Store) (id : String) (status : SessionStatus)
    (code : Option Int) (now : Int) :
    rowById (st.map fun r =>
        if r.id == id then { r with status := status, exitCode := code, updatedAt := now }
        else r) id =
      (rowById st id).map
        (fun r => { r with status := status, exitCode := code, updatedAt := now }) := by
  induction st with
  | nil => rfl
  | cons a t ih =>
    simp only [List.map_cons]
    by_cases h : (a.id == id) = true
    · have hup : ((fun r => r.id == id)
          ({ a with status := status, exitCode := code, updatedAt := now } : Session)) = true := h
      rw [if_pos h]
      unfold rowById
      rw [List.find?_cons_of_pos (p := fun r : Session => r.id == id) _ hup,
        List.find?_cons_of_pos (p := fun r : Session => r.id == id) _ h]
      rfl
    · have h2 : (a.id == id) = false := by simpa using h
      rw [if_neg (by simp [h2])]
      unfold rowById
      rw [List.find?_cons_of_neg (p := fun r : Session => r.id == id) _ (by simp [h2]),
        List.find?_cons_of_neg (p := fun r : Session => r.id == id) _ (by simp [h2])]
      exact ih

/-- `updateStatus` succeeds exactly on a present row, producing the mapped
store. -/
theorem updateStatus_of_present (st : Store) (id : String) (status : SessionStatus)
    (code : Option Int) (now : Int) (h : (rowById st id).isSome = true) :
    updateStatus st id status code now =
      .ok (st.map fun r =>
        if r.id == id then { r with status := status, exitCode := code, updatedAt := now }
        else r) := by
  have hany : (st.any fun r => r.id == id) = true := by
    obtain ⟨r, hr⟩ := Option.isSome_iff_exists.mp h
    have := List.mem_of_find?_eq_some hr
    have hpr := List.find?_some hr
    exact List.any_eq_true.mpr ⟨r, this, hpr⟩
  simp [updateStatus, hany]

/-- Updating a context's session commutes with the context lookup. -/
theorem find?_map_ctx_update (ss : List (String × SessionCtx)) (id : String)
    (status : SessionStatus) (code : Option Int) (now : Int) :
    ((ss.map fun p =>
        if p.1 == id then
          (p.1, { p.2 with session :=
            { p.2.session with status := status, exitCode := code, updatedAt := now } })
        else p).find? fun q => q.1 == id) =
      (ss.find? fun q => q.1 == id).map fun p =>
        (p.1, { p.2 with session :=
          { p.2.session with status := status, exitCode := code, updatedAt := now } }) := by
  induction ss with
  | nil => rfl
  | cons a t ih =>
    simp only [List.map_cons]
    by_cases h : (a.1 == id) = true
    · have hup : ((fun q : String × SessionCtx => q.1 == id)
          (a.1, { a.2 with session :=
            { a.2.session with status := status, exitCode := code, updatedAt := now } })) =
          true := h
      rw [if_pos h]
      rw [List.find?_cons_of_pos (p := fun q : String × SessionCtx => q.1 == id) _ hup,
        List.find?_cons_of_pos (p := fun q : String × SessionCtx => q.1 == id) _ h]
      rfl
    · have h2 : (a.1 == id) = false := by simpa using h
      rw [if_neg (by simp [h2])]
      rw [List.find?_cons_of_neg (p := fun q : String × SessionCtx => q.1 == id) _ (by simp [h2]),
        List.find?_cons_of_neg (p := fun q : String × SessionCtx => q.1 == id) _ (by simp [h2])]
      exact ih

/-- The effect of `handleProcessExit` on the store row and the in-memory
session, when both exist. -/
theorem handleProcessExit_effects (m : MgrState) (id : String) (exitCode : Int)
    (err : Option String) (now : Int)
    (hrow : (rowById m.store id).isSome = true)
    (hctx : (lookupCtx m id).isSome = true) :
    rowStatus (handleProcessExit m id exitCode err now).store id =
        some (if err.isSome then SessionStatus.failed else .exited) ∧
    rowExit (handleProcessExit m id exitCode err now).store id = some (some exitCode) ∧
    ctxStatus (handleProcessExit m id exitCode err now) id =
        some (if err.isSome then SessionStatus.failed else .exited) ∧
    ctxExit (handleProcessExit m id exitCode err now) id = some (some exitCode) := by
  obtain ⟨r, hr⟩ := Option.isSome_iff_exists.mp hrow
  rcases hfo : (m.sessions.find? fun q => q.1 == id) with _ | p
  · exfalso
    rw [lookupCtx, hfo] at hctx
    simp at hctx
  · have hstore : (handleProcessExit m id exitCode err now).store =
        m.store.map fun row =>
          if row.id == id then
            { row with status := if err.isSome then SessionStatus.failed else .exited,
                       exitCode := some exitCode, updatedAt := now }
          else row := by
      simp [handleProcessExit, updateStatus_of_present m.store id _ _ now hrow]
    have hsess : (handleProcessExit m id exitCode err now).sessions =
        m.sessions.map fun p =>
          if p.1 == id then
            (p.1, { p.2 with session :=
              { p.2.session with
                  status := if err.isSome then SessionStatus.failed else .exited,
                  exitCode := some exitCode, updatedAt := now } })
          else p := by
      simp [handleProcessExit]
    refine ⟨?_, ?_, ?_, ?_⟩
    · simp only [rowStatus]
      rw [hstore, rowById_map_update, hr]
      simp
    · simp only [rowExit]
      rw [hstore, rowById_map_update, hr]
      simp
    · simp only [ctxStatus, lookupCtx]
      rw [hsess, find?_map_ctx_update, hfo]
      simp
    · simp only [ctxExit, lookupCtx]
      rw [hsess, find?_map_ctx_update, hfo]
      simp

/-- C5.  Composing `Process.Wait` with `handleProcessExit`: a wait error
makes the session `failed`; a successful wait with non-zero code makes it
`exited` with that code; a successful zero wait makes it `exited` with 0 —
in the store row and in the in-memory session alike. -/
theorem claim_exit_status_policy (m : MgrState) (id : String) (w : CmdWaitOutcome) (now : Int)
    (hrow : (rowById m.store id).isSome = true)
    (hctx : (lookupCtx m id).isSome = true) :
    (∀ e, w = .otherError e →
      rowStatus (handleProcessExit m id (processWait w).1 (processWait w).2 now).store id =
          some .failed ∧
      ctxStatus (handleProcessExit m id (processWait w).1 (processWait w).2 now) id =
          some .failed) ∧
    (∀ c, w = .exitError c →
      rowStatus (handleProcessExit m id (processWait w).1 (processWait w).2 now).store id =
          some .exited ∧
      rowExit (handleProcessExit m id (processWait w).1 (processWait w).2 now).store id =
          some (some c) ∧
      ctxStatus (handleProcessExit m id (processWait w).1 (processWait w).2 now) id =
          some .exited ∧
      ctxExit (handleProcessExit m id (processWait w).1 (processWait w).2 now) id =
          some (some c)) ∧
    (w = .success →
      rowStatus (handleProcessExit m id (processWait w).1 (processWait w).2 now).store id =
          some .exited ∧
      rowExit (handleProcessExit m id (processWait w).1 (processWait w).2 now).store id =
          some (some 0) ∧
      ctxStatus (handleProcessExit m id (processWait w).1 (processWait w).2 now) id =
          some .exited ∧
      ctxExit (handleProcessExit m id (processWait w).1 (processWait w).2 now) id =
          some (some 0)) := by
  refine ⟨?_, ?_, ?_⟩
  · rintro e rfl
    have h := handleProcessExit_effects m id (-1) (some e) now hrow hctx
    simpa [processWait] using ⟨h.1, h.2.2.1⟩
  · rintro c rfl
    have h := handleProcessExit_effects m id c none now hrow hctx
    simpa [processWait] using h
  · rintro rfl
    have h := handleProcessExit_effects m id 0 none now hrow hctx
    simpa [processWait] using h

/-- Witness for C5: a one-row store and one-context map; a successful wait
with code 3 yields `exited`/3 in both places. -/
theorem claim_exit_status_policy_witness :
    (rowById [⟨"s1", "u", "n", "sh", "", [], .running, none, some 7, "p", 0, 0⟩] "s1").isSome =
        true ∧
    (lookupCtx
        ⟨[⟨"s1", "u", "n", "sh", "", [], .running, none, some 7, "p", 0, 0⟩],
          [("s1", ⟨⟨"s1", "u", "n", "sh", "", [], .running, none, some 7, "p", 0, 0⟩,
            some ⟨["sh"], 7, false⟩, .generic⟩)]⟩ "s1").isSome = true ∧
    (∀ c, CmdWaitOutcome.exitError 3 = .exitError c →
      rowStatus (handleProcessExit
          ⟨[⟨"s1", "u", "n", "sh", "", [], .running, none, some 7, "p", 0, 0⟩],
            [("s1", ⟨⟨"s1", "u", "n", "sh", "", [], .running, none, some 7, "p", 0, 0⟩,
              some ⟨["sh"], 7, false⟩, .generic⟩)]⟩ "s1"
          (processWait (.exitError 3)).1 (processWait (.exitError 3)).2 9).store "s1" =
        some .exited ∧
      rowExit (handleProcessExit
          ⟨[⟨"s1", "u", "n", "sh", "", [], .running, none, some 7, "p", 0, 0⟩],
            [("s1", ⟨⟨"s1", "u", "n", "sh", "", [], .running, none, some 7, "p", 0, 0⟩,
              some ⟨["sh"], 7, false⟩, .generic⟩)]⟩ "s1"
          (processWait (.exitError 3)).1 (processWait (.exitError 3)).2 9).store "s1" =
        some (some c) ∧
      ctxStatus (handleProcessExit
          ⟨[⟨"s1", "u", "n", "sh", "", [], .running, none, some 7, "p", 0, 0⟩],
            [("s1", ⟨⟨"s1", "u", "n", "sh", "", [], .running, none, some 7, "p", 0, 0⟩,
              some ⟨["sh"], 7, false⟩, .generic⟩)]⟩ "s1"
          (processWait (.exitError 3)).1 (processWait (.exitError 3)).2 9) "s1" =
        some .exited ∧
      ctxExit (handleProcessExit
          ⟨[⟨"s1", "u", "n", "sh", "", [], .running, none, some 7, "p", 0, 0⟩],
            [("s1", ⟨⟨"s1", "u", "n", "sh", "", [], .running, none, some 7, "p", 0, 0⟩,
              some ⟨["sh"], 7, false⟩, .generic⟩)]⟩ "s1"
          (processWait (.exitError 3)).1 (processWait (.exitError 3)).2 9) "s1" =
        some (some c)) :=
  ⟨by decide, by decide,
    (claim_exit_status_policy
      ⟨[⟨"s1", "u", "n", "sh", "", [], .running, none, some 7, "p", 0, 0⟩],
        [("s1", ⟨⟨"s1", "u", "n", "sh", "", [], .running, none, some 7, "p", 0, 0⟩,
          some ⟨["sh"], 7, false⟩, .generic⟩)]⟩ "s1" (.exitError 3) 9
      (by decide) (by decide)).2.1⟩

/-- A prefix of `l₁` is a prefix of `l₁ ++ l₂`. -/
theorem listStarts_append (l₁ l₂ p : List Char) (h : listStarts l₁ p = true) :
    listStarts (l₁ ++ l₂) p = true := by
  induction p generalizing l₁ with
  | nil => cases l₁ <;> simp [listStarts]
  | cons b bs ih =>
    cases l₁ with
    | nil => simp [listStarts] at h
    | cons a as =>
      simp only [List.cons_append, listStarts, Bool.and_eq_true] at h ⊢
      exact ⟨h.1, ih as h.2⟩

/-- A list that starts with the pattern contains it. -/
theorem listHasSub_of_starts (l pat : List Char) (h : listStarts l pat = true) :
    listHasSub l pat = true := by
  cases l with
  | nil =>
      cases pat with
      | nil => rfl
      | cons b bs => simp [listStarts] at h
  | cons a t => simp [listHasSub, h]

/-- The concurrency-limit error message always contains the marker string
the HTTP handler tests for. -/
theorem limit_msg_contains_marker (mx : Nat) :
    strContains (createErrMessage (.limitReached mx)) "maximum active sessions" = true := by
  have hsplit : (createErrMessage (.limitReached mx)).toList =
      "maximum active sessions (".toList ++ (toString mx ++ ") reached for user").toList := by
    show ("maximum active sessions (" ++ toString mx ++ ") reached for user").toList = _
    rw [String.append_assoc]
    rfl
  show listHasSub (createErrMessage (.limitReached mx)).toList _ = true
  apply listHasSub_of_starts
  rw [hsplit]
  exact listStarts_append _ _ _ (by decide)

/-- C8.  With the default of 10 for an unset limit: when the user's count
of `running` rows is at least `maxSessionsPerUser`, `Create` refuses with
the concurrency-limit error (classified 429/`LIMIT_EXCEEDED` by the HTTP
layer), leaves the store unchanged and spawns nothing; when the count is
below the limit (and the command is non-empty and tokenizes), creation
proceeds and returns a session with the fresh id. -/
theorem claim_concurrency_limit (m : MgrState) (cfg : Nat) (logDir : String)
    (req : CreateSessionRequest) (newId : String) (now : Int) (childPid : Int)
    (hcmd : req.command ≠ "") :
    resolveMaxSessions 0 = 10 ∧
    (resolveMaxSessions cfg ≤ countActiveByUser m.store req.userId →
      (managerCreate m (resolveMaxSessions cfg) logDir req newId now true childPid).result =
          .error (.limitReached (resolveMaxSessions cfg)) ∧
      (managerCreate m (resolveMaxSessions cfg) logDir req newId now true childPid).store =
          m.store ∧
      (managerCreate m (resolveMaxSessions cfg) logDir req newId now true childPid).spawned =
          [] ∧
      classifyCreateError (resolveMaxSessions cfg)
          (.limitReached (resolveMaxSessions cfg)) = (429, "LIMIT_EXCEEDED")) ∧
    (countActiveByUser m.store req.userId < resolveMaxSessions cfg →
      splitCommand req.command ≠ [] →
      ∃ sess,
        (managerCreate m (resolveMaxSessions cfg) logDir req newId now true childPid).result =
            .ok sess ∧
        sess.id = newId) := by
  refine ⟨rfl, fun hle => ?_, fun hlt hsplit => ?_⟩
  · refine ⟨?_, ?_, ?_, ?_⟩ <;>
      first
      | · simp only [managerCreate, if_neg hcmd, if_pos hle]
      | · simp only [classifyCreateError,
            if_neg (by simp : ¬(CreateErr.limitReached (resolveMaxSessions cfg) =
              .validation "command is required")),
            if_pos (Or.inr (limit_msg_contains_marker (resolveMaxSessions cfg)))]
  · have hnotle : ¬(resolveMaxSessions cfg ≤ countActiveByUser m.store req.userId) :=
      Nat.not_le.mpr hlt
    simp only [managerCreate, if_neg hcmd, if_neg hnotle]
    split
    · next e heq =>
        simp [ptySpawn, hcmd, hsplit] at heq
    · next proc heq =>
        exact ⟨_, rfl, rfl⟩

/-- Witness for C8: two `running` rows for user `u` and a limit of 2 — the
refusal branch applies with a 429/`LIMIT_EXCEEDED` classification, and the
store keeps exactly its two rows. -/
theorem claim_concurrency_limit_witness :
    (("sh" : String) ≠ "") ∧
    (resolveMaxSessions 0 = 10 ∧
      (resolveMaxSessions 2 ≤
          countActiveByUser [⟨"r1", "u", "n", "sh", "", [], .running, none, none, "p", 0, 0⟩,
            ⟨"r2", "u", "n", "sh", "", [], .running, none, none, "p", 0, 0⟩] "u" →
        (managerCreate
            ⟨[⟨"r1", "u", "n", "sh", "", [], .running, none, none, "p", 0, 0⟩,
              ⟨"r2", "u", "n", "sh", "", [], .running, none, none, "p", 0, 0⟩], []⟩
            (resolveMaxSessions 2) "logs" ⟨"sh", "", "", [], "u"⟩ "newid123" 3 true 55).result =
            .error (.limitReached (resolveMaxSessions 2)) ∧
        (managerCreate
            ⟨[⟨"r1", "u", "n", "sh", "", [], .running, none, none, "p", 0, 0⟩,
              ⟨"r2", "u", "n", "sh", "", [], .running, none, none, "p", 0, 0⟩], []⟩
            (resolveMaxSessions 2) "logs" ⟨"sh", "", "", [], "u"⟩ "newid123" 3 true 55).store =
            [⟨"r1", "u", "n", "sh", "", [], .running, none, none, "p", 0, 0⟩,
              ⟨"r2", "u", "n", "sh", "", [], .running, none, none, "p", 0, 0⟩] ∧
        (managerCreate
            ⟨[⟨"r1", "u", "n", "sh", "", [], .running, none, none, "p", 0, 0⟩,
              ⟨"r2", "u", "n", "sh", "", [], .running, none, none, "p", 0, 0⟩], []⟩
            (resolveMaxSessions 2) "logs" ⟨"sh", "", "", [], "u"⟩ "newid123" 3 true 55).spawned =
            [] ∧
        classifyCreateError (resolveMaxSessions 2)
            (.limitReached (resolveMaxSessions 2)) = (429, "LIMIT_EXCEEDED")) ∧
      (countActiveByUser [⟨"r1", "u", "n", "sh", "", [], .running, none, none, "p", 0, 0⟩,
            ⟨"r2", "u", "n", "sh", "", [], .running, none, none, "p", 0, 0⟩] "u" <
          resolveMaxSessions 2 →
        splitCommand "sh" ≠ [] →
        ∃ sess,
          (managerCreate
              ⟨[⟨"r1", "u", "n", "sh", "", [], .running, none, none, "p", 0, 0⟩,
                ⟨"r2", "u", "n", "sh", "", [], .running, none, none, "p", 0, 0⟩], []⟩
              (resolveMaxSessions 2) "logs" ⟨"sh", "", "", [], "u"⟩ "newid123" 3 true
              55).result = .ok sess ∧
          sess.id = "newid123")) :=
  ⟨by decide,
    claim_concurrency_limit
      ⟨[⟨"r1", "u", "n", "sh", "", [], .running, none, none, "p", 0, 0⟩,
        ⟨"r2", "u", "n", "sh", "", [], .running, none, none, "p", 0, 0⟩], []⟩
      2 "logs" ⟨"sh", "", "", [], "u"⟩ "newid123" 3 55 (by decide)⟩

/-- C4 (code bug).  Restarting an exited session whose command is
`"claude"` keeps the id stable and binds the Claude driver chosen from the
rewritten command — but the new process is spawned from `sess.Command`,
which `Restart` never rewrites, so its argv is `["claude"]`, not the
tokenization `["claude", "--resume"]` of the rewritten command that the
claim (and the source's own comment) calls for. -/
theorem restart_spawns_original_command :
    (∃ s, (managerRestart
        ⟨[⟨"s1", "u", "n", "claude", "", [], .exited, some 0, some 7, "d/s1.cast", 0, 0⟩], []⟩
        "s1" 5 true 99).2 = .ok s ∧ s.id = "s1" ∧ s.command = "claude") ∧
    (lookupCtx (managerRestart
        ⟨[⟨"s1", "u", "n", "claude", "", [], .exited, some 0, some 7, "d/s1.cast", 0, 0⟩], []⟩
        "s1" 5 true 99).1 "s1").map (fun c => c.proc.map Proc.argv) =
      some (some ["claude"]) ∧
    (lookupCtx (managerRestart
        ⟨[⟨"s1", "u", "n", "claude", "", [], .exited, some 0, some 7, "d/s1.cast", 0, 0⟩], []⟩
        "s1" 5 true 99).1 "s1").map SessionCtx.driver = some .claude ∧
    splitCommand "claude --resume" = ["claude", "--resume"] ∧
    (["claude"] : List String) ≠ ["claude", "--resume"] := by
  refine ⟨⟨_, rfl, rfl, rfl⟩, rfl, rfl, by decide, by decide⟩

/-- C9 (code bug).  A session whose persisted status is `failed` with exit
code 2 is restarted and the spawn fails: the code's "revert" writes status
`exited` with a `nil` exit code (because `sess.ExitCode` was cleared before
the spawn), instead of restoring `failed`/2. -/
theorem restart_failure_overwrites_status :
    (∃ e, (managerRestart
        ⟨[⟨"s1", "u", "n", "sh", "", [], .failed, some 2, some 7, "d/s1.cast", 0, 0⟩], []⟩
        "s1" 5 false 99).2 = .error e) ∧
    rowStatus (managerRestart
        ⟨[⟨"s1", "u", "n", "sh", "", [], .failed, some 2, some 7, "d/s1.cast", 0, 0⟩], []⟩
        "s1" 5 false 99).1.store "s1" = some .exited ∧
    rowExit (managerRestart
        ⟨[⟨"s1", "u", "n", "sh", "", [], .failed, some 2, some 7, "d/s1.cast", 0, 0⟩], []⟩
        "s1" 5 false 99).1.store "s1" = some none ∧
    (SessionStatus.exited ≠ .failed ∧ (none : Option Int) ≠ some 2) := by
  exact ⟨⟨_, rfl⟩, rfl, rfl, by decide, by decide⟩

/-- C6 counterexample.  The claim says a repeated `claude_action` is
suppressed only when *less than* 2 s have elapsed since the last emission,
and is emitted otherwise.  At exactly 2 s the elapsed time is not less than
2 s — yet the code (whose emit condition is strictly *more than* 2 s)
suppresses the message. -/
theorem action_window_counterexample :
    (claudeParse newClaudeDriver "● Write(a.txt)" 0).1.messages =
      [⟨0, "claude_action", "Write(a.txt)"⟩] ∧
    ((claudeParse newClaudeDriver "● Write(a.txt)" 0).2.1.lastClaudeAction = "Write(a.txt)" ∧
      (claudeParse newClaudeDriver "● Write(a.txt)" 0).2.1.lastActionTime = 0) ∧
    ¬((2000000000 : Int) - 0 < 2 * 1000000000) ∧
    (claudeParse (claudeParse newClaudeDriver "● Write(a.txt)" 0).2.1 "● Write(a.txt)"
        2000000000).1.messages = [] :=
  ⟨rfl, ⟨rfl, rfl⟩, by norm_num, rfl⟩

/-- C6 (amended).  For a tool-action line, the driver emits the
`claude_action` iff its content differs from the last recorded action or
strictly more than 2 s have elapsed since the driver's recorded
last-action time (so content equal and elapsed ≤ 2 s is suppressed — the
boundary instant included); the recorded last-action time is refreshed
both on action emission and when an output block is flushed.  Identical
consecutive `user_input`, `claude_response`, `session_resumed` and
output-block contents are always suppressed, independently of time. -/
theorem claim_action_dedup_amended (A : String) (T now : Int) :
    -- tool-action window, on the per-line machine
    (processLine { newClaudeDriver with lastClaudeAction := A, lastActionTime := T }
        "● Write(a.txt)" now =
      if "Write(a.txt)" ≠ A ∨ 2 * 1000000000 < now - T then
        ({ newClaudeDriver with lastClaudeAction := "Write(a.txt)", lastActionTime := now },
          [⟨now, "claude_action", "Write(a.txt)"⟩])
      else ({ newClaudeDriver with lastClaudeAction := A, lastActionTime := T }, [])) ∧
    -- the boundary instant: equal content, exactly 2 s elapsed — suppressed
    (claudeParse (claudeParse newClaudeDriver "● Write(a.txt)" 0).2.1 "● Write(a.txt)"
        (2 * 1000000000)).1.messages = [] ∧
    (claudeParse (claudeParse newClaudeDriver "● Write(a.txt)" 0).2.1 "● Write(a.txt)"
        (2 * 1000000000 + 1)).1.messages =
      [⟨2 * 1000000000 + 1, "claude_action", "Write(a.txt)"⟩] ∧
    -- flushing an output block refreshes the recorded last-action time
    ((flushOutputBlock
        { newClaudeDriver with
            inOutputBlock := true, outputLines := ["some output"],
            outputStartTime := T }).1.lastActionTime = T ∧
      (flushOutputBlock
        { newClaudeDriver with
            inOutputBlock := true, outputLines := ["some output"],
            outputStartTime := T }).2 = [⟨T, "command_output", "some output"⟩]) ∧
    -- identical consecutive user_input is suppressed at any time
    (claudeParse { newClaudeDriver with lastUserInput := "hello world" }
        "> hello world" now).1.messages = [] ∧
    -- identical consecutive claude_response is suppressed at any time
    (claudeParse { newClaudeDriver with lastResponse := "This is a longer response" }
        "● This is a longer response" now).1.messages = [] ∧
    -- identical consecutive session_resumed is suppressed at any time
    (claudeParse
        { newClaudeDriver with
            lastSessionResumed := "good\n3 minutes ago · 16 messages · main",
            lastUserInput := "hi" }
        "Resume Session\n❯ good\n3 minutes ago · 16 messages · main\n> hi" now).1.messages =
      [] ∧
    -- identical consecutive output-block content is suppressed at any time
    (claudeParse
        { newClaudeDriver with
            lastActionResult := "Wrote 3 lines", lastUserInput := "ok" }
        "⎿ Wrote 3 lines\n> ok" now).1.messages = [] :=
  ⟨rfl, rfl, rfl, ⟨rfl, rfl⟩, rfl, rfl, rfl, rfl⟩

/-- C7 counterexample.  The claim says a parse of previously seen content
after `Reset` is not suppressed by pre-reset state: but `Reset` leaves
`lastUserInput` (and the other dedup slots) intact, so re-parsing the same
user-input line after a reset emits nothing. -/
theorem reset_keeps_dedup_counterexample :
    (claudeParse newClaudeDriver "> hello world" 0).1.messages =
      [⟨0, "user_input", "hello world"⟩] ∧
    (claudeReset (claudeParse newClaudeDriver "> hello world" 0).2.1).lastUserInput =
      "hello world" ∧
    (claudeParse (claudeReset (claudeParse newClaudeDriver "> hello world" 0).2.1)
        "> hello world" 0).1.messages = [] :=
  ⟨rfl, rfl, rfl⟩

/-- C7 (amended).  `Reset` clears the match buffer, both multi-line
collectors (output block and response block, header included) and the
resume-menu tracking state — but it does *not* clear the last-emitted
deduplication slots (`lastUserInput`, `lastClaudeAction`, `lastResponse`,
`lastActionResult`, `lastSessionResumed`) nor `lastActionTime`, so content
seen before the reset can still be suppressed afterwards. -/
theorem claim_reset_amended (d : ClaudeDriver) :
    (claudeReset d).buffer = "" ∧
    (claudeReset d).inOutputBlock = false ∧
    (claudeReset d).outputLines = [] ∧
    (claudeReset d).outputBlockHeader = "" ∧
    (claudeReset d).inResponseBlock = false ∧
    (claudeReset d).responseLines = [] ∧
    (claudeReset d).inResumeMenu = false ∧
    (claudeReset d).lastResumeSelection = "" ∧
    (claudeReset d).resumeSelectionComplete = false ∧
    (claudeReset d).lastUserInput = d.lastUserInput ∧
    (claudeReset d).lastClaudeAction = d.lastClaudeAction ∧
    (claudeReset d).lastResponse = d.lastResponse ∧
    (claudeReset d).lastActionResult = d.lastActionResult ∧
    (claudeReset d).lastSessionResumed = d.lastSessionResumed ∧
    (claudeReset d).lastActionTime = d.lastActionTime :=
  ⟨rfl, rfl, rfl, rfl, rfl, rfl, rfl, rfl, rfl, rfl, rfl, rfl, rfl, rfl, rfl⟩

end RemoteAgents
